import Mathlib

/-!
Verification development for the password-strength checker
(`src/password-strength-checker.py`).  The evaluation engine is embedded
shallowly: a password is a `List Char`, Python integers are `Nat`/`Int`
(the score can in principle go negative, so it lives in `Int`), and the
floating-point divisions of the crack-time estimate are modelled by exact
integer arithmetic (the thresholds `1e10` and `1e8` are exactly
representable, and all quantities compared are integers divided by powers
of ten, so floor/truncation agrees with the exact rational value at every
threshold relevant to the claims).
-/

/-- Number of bits needed to represent `n`, as computed by Python's
`int.bit_length` (`0` for `n = 0`).  Implemented with an explicit fuel
argument so that it is structurally recursive and kernel-reducible. -/
def bitLengthAux : Nat → Nat → Nat
  | 0, _ => 0
  | fuel + 1, n => if n = 0 then 0 else bitLengthAux fuel (n / 2) + 1

/-- Python's `int.bit_length`. -/
def bitLength (n : Nat) : Nat := bitLengthAux n n

/-- The `lowercase` character set of `calculate_entropy` (26 characters). -/
def entLowercase : List Char :=
  ['a', 'b', 'c', 'd', 'e', 'f', 'g', 'h', 'i', 'j', 'k', 'l', 'm',
   'n', 'o', 'p', 'q', 'r', 's', 't', 'u', 'v', 'w', 'x', 'y', 'z']

/-- The `uppercase` character set of `calculate_entropy` (26 characters). -/
def entUppercase : List Char :=
  ['A', 'B', 'C', 'D', 'E', 'F', 'G', 'H', 'I', 'J', 'K', 'L', 'M',
   'N', 'O', 'P', 'Q', 'R', 'S', 'T', 'U', 'V', 'W', 'X', 'Y', 'Z']

/-- The `numbers` character set of `calculate_entropy` (10 characters). -/
def entNumbers : List Char :=
  ['0', '1', '2', '3', '4', '5', '6', '7', '8', '9']

/-- The `symbols` character set of `calculate_entropy`: the 26-character
string `!@#$%^&*()_+-=[]\x7b\x7d|;:,.<>?`. -/
def entSymbols : List Char :=
  ['!', '@', '#', '$', '%', '^', '&', '*', '(', ')', '_', '+', '-', '=',
   '[', ']', '\x7b', '\x7d', '|', ';', ':', ',', '.', '<', '>', '?']

/-- Python's `any(c in char_set for c in password)`. -/
def inSet (s : List Char) (p : List Char) : Bool :=
  p.any (fun c => s.contains c)

/-- The `pool_size` accumulated by `calculate_entropy`: for each of the four
character sets that has a member in the password, add the length of that
set. -/
def pool_size (p : List Char) : Nat :=
  (if inSet entLowercase p then entLowercase.length else 0) +
  (if inSet entUppercase p then entUppercase.length else 0) +
  (if inSet entNumbers p then entNumbers.length else 0) +
  (if inSet entSymbols p then entSymbols.length else 0)

/-- `calculate_entropy`: `len(password) * (pool_size.bit_length() if
pool_size > 0 else 0)`.  The Python function returns a float, but the value
is always a nonnegative integer. -/
def calculate_entropy (p : List Char) : Nat :=
  p.length * (if 0 < pool_size p then bitLength (pool_size p) else 0)

/-- ASCII lowercasing of a single character, as `str.lower()` acts on the
characters relevant to this program. -/
def lowerChar (c : Char) : Char :=
  if 65 ≤ c.toNat ∧ c.toNat ≤ 90 then Char.ofNat (c.toNat + 32) else c

/-- Python's `password.lower()`. -/
def toLowerStr (p : List Char) : List Char := p.map lowerChar

/-- Does the pattern occur at the very start of the text?  (Literal
matching, used to model `re.search` on alternations of literals.) -/
def matchAt : List Char → List Char → Bool
  | [], _ => true
  | _ :: _, [] => false
  | q :: qs, c :: cs => q == c && matchAt qs cs

/-- Does the literal pattern occur anywhere in the text?  This models both
`re.search` on an alternation of literals and Python's `in` on strings. -/
def containsSeq (pat : List Char) : List Char → Bool
  | [] => matchAt pat []
  | c :: rest => matchAt pat (c :: rest) || containsSeq pat rest

/-- The regex `(.)\1{2,}`: some character occurs at least three times in
immediate succession. -/
def hasRepeated : List Char → Bool
  | a :: b :: c :: rest => (a == b && b == c) || hasRepeated (b :: c :: rest)
  | _ => false

/-- The eight alternatives of the regex
`(?:0123|1234|2345|3456|4567|5678|6789|7890)`. -/
def digitQuads : List (List Char) :=
  [['0', '1', '2', '3'], ['1', '2', '3', '4'], ['2', '3', '4', '5'],
   ['3', '4', '5', '6'], ['4', '5', '6', '7'], ['5', '6', '7', '8'],
   ['6', '7', '8', '9'], ['7', '8', '9', '0']]

/-- The twenty-three alternatives of the regex
`(?:abcd|bcde|...|wxyz)`. -/
def letterQuads : List (List Char) :=
  [['a', 'b', 'c', 'd'], ['b', 'c', 'd', 'e'], ['c', 'd', 'e', 'f'],
   ['d', 'e', 'f', 'g'], ['e', 'f', 'g', 'h'], ['f', 'g', 'h', 'i'],
   ['g', 'h', 'i', 'j'], ['h', 'i', 'j', 'k'], ['i', 'j', 'k', 'l'],
   ['j', 'k', 'l', 'm'], ['k', 'l', 'm', 'n'], ['l', 'm', 'n', 'o'],
   ['m', 'n', 'o', 'p'], ['n', 'o', 'p', 'q'], ['o', 'p', 'q', 'r'],
   ['p', 'q', 'r', 's'], ['q', 'r', 's', 't'], ['r', 's', 't', 'u'],
   ['s', 't', 'u', 'v'], ['t', 'u', 'v', 'w'], ['u', 'v', 'w', 'x'],
   ['v', 'w', 'x', 'y'], ['w', 'x', 'y', 'z']]

/-- The keyboard-pattern literals `['qwerty', 'asdfgh', 'zxcvbn']`. -/
def keyboardPats : List (List Char) :=
  [['q', 'w', 'e', 'r', 't', 'y'], ['a', 's', 'd', 'f', 'g', 'h'],
   ['z', 'x', 'c', 'v', 'b', 'n']]

/-- The sequential-digits check shared by `analyze_password_patterns` and
`calculate_password_strength`. -/
def hasSeqDigits (p : List Char) : Bool :=
  digitQuads.any (fun q => containsSeq q p)

/-- The sequential-letters check (applied to the lowercased password). -/
def hasSeqLetters (p : List Char) : Bool :=
  letterQuads.any (fun q => containsSeq q (toLowerStr p))

/-- The keyboard-pattern check (applied to the lowercased password). -/
def hasKeyboard (p : List Char) : Bool :=
  keyboardPats.any (fun q => containsSeq q (toLowerStr p))

/-- `analyze_password_patterns`: the list of pattern messages. -/
def analyze_password_patterns (p : List Char) : List String :=
  (if hasRepeated p then ["Contains repeated characters"] else []) ++
  (if hasSeqDigits p then ["Contains sequential numbers"] else []) ++
  (if hasSeqLetters p then ["Contains sequential letters"] else []) ++
  (if hasKeyboard p then ["Contains keyboard patterns"] else [])

/-- The regex character class `[a-z]` applied to one character. -/
def isLowerAlpha (c : Char) : Bool := 97 ≤ c.toNat && c.toNat ≤ 122

/-- The regex character class `[A-Z]` applied to one character. -/
def isUpperAlpha (c : Char) : Bool := 65 ≤ c.toNat && c.toNat ≤ 90

/-- The regex character class `[0-9]` applied to one character. -/
def isDigitChar (c : Char) : Bool := 48 ≤ c.toNat && c.toNat ≤ 57

/-- The special characters of the regex class used by the scorer and the
requirements table: `!@#$%^&*(),.?":\x7b\x7d|<>` (20 characters). -/
def specialChars : List Char :=
  ['!', '@', '#', '$', '%', '^', '&', '*', '(', ')', ',', '.', '?',
   '\x22', ':', '\x7b', '\x7d', '|', '<', '>']

/-- `re.search(r'[a-z]', password)` as a boolean. -/
def has_lower (p : List Char) : Bool := p.any isLowerAlpha

/-- `re.search(r'[A-Z]', password)` as a boolean. -/
def has_upper (p : List Char) : Bool := p.any isUpperAlpha

/-- `re.search(r'[0-9]', password)` as a boolean. -/
def has_digit (p : List Char) : Bool := p.any isDigitChar

/-- `re.search(r'[!@#$%^&*(),.?":\x7b\x7d|<>]', password)` as a boolean. -/
def has_special (p : List Char) : Bool := p.any (fun c => specialChars.contains c)

/-- `length_score = min(4, len(password) // 3)`. -/
def length_score (p : List Char) : Nat := min 4 (p.length / 3)

/-- `variety_score = sum([has_lower, has_upper, has_digit, has_special])`. -/
def variety_score (p : List Char) : Nat :=
  (if has_lower p then 1 else 0) + (if has_upper p then 1 else 0) +
  (if has_digit p then 1 else 0) + (if has_special p then 1 else 0)

/-- `pattern_score`: starts at 2 and loses one point for each of the
repeated-characters, sequential-digits and sequential-letters checks that
fires (the keyboard-pattern check does not appear here). -/
def pattern_score (p : List Char) : Int :=
  ((2 - (if hasRepeated p then 1 else 0)) -
    (if hasSeqDigits p then 1 else 0)) -
    (if hasSeqLetters p then 1 else 0)

/-- `entropy_score = min(2, int(entropy / 50))`. -/
def entropy_score (p : List Char) : Nat := min 2 (calculate_entropy p / 50)

/-- The accumulated `score` variable of `calculate_password_strength`
just before it is converted to the 0–4 scale: length, variety, pattern
and entropy contributions in that order. -/
def raw_score (p : List Char) : Int :=
  (length_score p : Int) + (variety_score p : Int) + pattern_score p +
    (entropy_score p : Int)

/-- `possible_chars` accumulated from the four variety booleans. -/
def possible_chars (p : List Char) : Nat :=
  (if has_lower p then 26 else 0) + (if has_upper p then 26 else 0) +
  (if has_digit p then 10 else 0) + (if has_special p then 32 else 0)

/-- `possible_chars` after the `if possible_chars == 0: possible_chars = 1`
guard. -/
def possible_chars_floored (p : List Char) : Nat :=
  if possible_chars p = 0 then 1 else possible_chars p

/-- `combinations = possible_chars ** len(password)`. -/
def combinations (p : List Char) : Nat :=
  possible_chars_floored p ^ p.length

/-- The `online_throttling_100_per_hour` display string.  In exact
arithmetic `seconds_to_crack = combinations / 10^10`, so
`seconds_to_crack > 1e8` is `combinations > 10^18` and
`int(seconds_to_crack / 3600)` is `combinations / (36 * 10^12)` with
integer division. -/
def crack_online (p : List Char) : String :=
  if 10 ^ 18 < combinations p then "centuries"
  else toString (combinations p / (36 * 10 ^ 12)) ++ " hours"

/-- The `offline_fast_hashing_1e10_per_second` display string:
`int(seconds_to_crack)` is `combinations / 10^10` with integer division. -/
def crack_offline (p : List Char) : String :=
  if 10 ^ 18 < combinations p then "centuries"
  else toString (combinations p / 10 ^ 10) ++ " seconds"

/-- The warning sentence chosen from the raw (pre-halving) score. -/
def warning_of (p : List Char) : String :=
  if raw_score p < 2 then "This password is very weak"
  else if raw_score p < 4 then "This password is weak"
  else if raw_score p < 6 then "This password is moderate"
  else if raw_score p < 8 then "This password is strong"
  else "This password is very strong"

/-- The `feedback["suggestions"]` list, in the order the code appends. -/
def suggestions_of (p : List Char) : List String :=
  (if hasRepeated p then ["Avoid repeated characters"] else []) ++
  (if hasSeqDigits p then ["Avoid sequential numbers"] else []) ++
  (if hasSeqLetters p then ["Avoid sequential letters"] else [])

/-- The dictionary returned by `calculate_password_strength`: the displayed
score, the feedback warning and suggestions, and the two crack-time display
strings. -/
structure PSResult where
  score : Int
  warning : String
  suggestions : List String
  online : String
  offline : String
  deriving Repr, DecidableEq

/-- `calculate_password_strength`: the displayed score is
`min(4, score // 2)` (floor division) of the raw score. -/
def calculate_password_strength (p : List Char) : PSResult :=
  { score := min 4 (Int.fdiv (raw_score p) 2)
    warning := warning_of p
    suggestions := suggestions_of p
    online := crack_online p
    offline := crack_offline p }

/-- The `requirements` dictionary built in `main` (name/boolean pairs, in
source order). -/
def requirements (p : List Char) : List (String × Bool) :=
  [("Length", decide (12 ≤ p.length)),
   ("Uppercase", has_upper p),
   ("Lowercase", has_lower p),
   ("Numbers", has_digit p),
   ("Special Characters", has_special p)]

/-! ## Claim-side definitions

The following definitions transcribe the wording of the specification
claims, to be compared with the source-derived definitions above. -/

/-- Claim side of C3: the entropy pool with the four classes taken to have
sizes 26/26/10/32, class presence tested with the same character sets the
source scans. -/
def claimPool32 (p : List Char) : Nat :=
  (if inSet entLowercase p then 26 else 0) +
  (if inSet entUppercase p then 26 else 0) +
  (if inSet entNumbers p then 10 else 0) +
  (if inSet entSymbols p then 32 else 0)

/-- Claim side of C3: `len(password) * bit_length(pool)` with a 32-symbol
class (zero when the pool is zero, since `bitLength 0 = 0`). -/
def claimEntropy32 (p : List Char) : Nat := p.length * bitLength (claimPool32 p)

/-- Amended claim side of C3: the same formula with the symbol class given
its actual size, 26. -/
def claimPool26 (p : List Char) : Nat :=
  (if inSet entLowercase p then 26 else 0) +
  (if inSet entUppercase p then 26 else 0) +
  (if inSet entNumbers p then 10 else 0) +
  (if inSet entSymbols p then 26 else 0)

/-- Amended claim side of C3: `len(password) * bit_length(pool)` with the
corrected class sizes 26/26/10/26. -/
def claimEntropyFixed (p : List Char) : Nat :=
  p.length * bitLength (claimPool26 p)

/-- The digit sequence "0123456789" of claim C4. -/
def digitSequence : List Char :=
  ['0', '1', '2', '3', '4', '5', '6', '7', '8', '9']

/-- The seven 4-character consecutive windows of `digitSequence`. -/
def ascendingWindows : List (List Char) :=
  (List.range 7).map (fun i => (digitSequence.drop i).take 4)

/-- Claim side of C4: the password contains a 4-character consecutive
ascending run drawn from the digit sequence "0123456789". -/
def claimSeqAscending (p : List Char) : Bool :=
  ascendingWindows.any (fun q => containsSeq q p)

/-- Claim side of C5: the length component `min(4, floor(len/3))`. -/
def claim_length_component (p : List Char) : Int :=
  ((min 4 (p.length / 3) : Nat) : Int)

/-- Claim side of C5: the count of the four character-class booleans that
are true. -/
def claim_variety_component (p : List Char) : Int :=
  (([has_lower p, has_upper p, has_digit p, has_special p].count true : Nat) : Int)

/-- Claim side of C5: 2 minus one for each of the RepeatedCharacters,
SequentialDigits and SequentialLetters findings reported by the pattern
analyzer (KeyboardPattern does not penalize). -/
def claim_pattern_component (p : List Char) : Int :=
  2 - ((if "Contains repeated characters" ∈ analyze_password_patterns p then 1 else 0) +
       (if "Contains sequential numbers" ∈ analyze_password_patterns p then 1 else 0) +
       (if "Contains sequential letters" ∈ analyze_password_patterns p then 1 else 0))

/-- Claim side of C5: the entropy component `min(2, floor(entropy/50))`. -/
def claim_entropy_component (p : List Char) : Int :=
  ((min 2 (calculate_entropy p / 50) : Nat) : Int)

/-- Claim side of C5/C6: the raw (pre-halving) total. -/
def claim_raw_total (p : List Char) : Int :=
  claim_length_component p + claim_variety_component p +
    claim_pattern_component p + claim_entropy_component p

/-- Claim side of C6: the warning label chosen from the raw total by the
fixed thresholds. -/
def warning_label (t : Int) : String :=
  if t < 2 then "very weak"
  else if t < 4 then "weak"
  else if t < 6 then "moderate"
  else if t < 8 then "strong"
  else "very strong"

/-- Claim side of C7: sum of class sizes 26/26/10/32 over present classes,
floored to 1 when no class is present. -/
def claim_possible_chars (p : List Char) : Nat :=
  max 1 ((if has_lower p then 26 else 0) + (if has_upper p then 26 else 0) +
         (if has_digit p then 10 else 0) + (if has_special p then 32 else 0))

/-- Claim side of C7: `possibleChars ^ len(password)`. -/
def claim_combinations (p : List Char) : Nat :=
  claim_possible_chars p ^ p.length

/-- Claim side of C7: the online crack-time string. -/
def claim_online (p : List Char) : String :=
  if 10 ^ 18 < claim_combinations p then "centuries"
  else toString (claim_combinations p / (36 * 10 ^ 12)) ++ " hours"

/-- Claim side of C7: the offline crack-time string. -/
def claim_offline (p : List Char) : String :=
  if 10 ^ 18 < claim_combinations p then "centuries"
  else toString (claim_combinations p / 10 ^ 10) ++ " seconds"

/-- Claim side of C9: `c` is an uppercase letter. -/
def IsUppercaseLetter (c : Char) : Prop := 65 ≤ c.toNat ∧ c.toNat ≤ 90

/-- Claim side of C9: `c` is a lowercase letter. -/
def IsLowercaseLetter (c : Char) : Prop := 97 ≤ c.toNat ∧ c.toNat ≤ 122

/-- Claim side of C9: `c` is a decimal digit. -/
def IsDecimalDigit (c : Char) : Prop := 48 ≤ c.toNat ∧ c.toNat ≤ 57

/-- Claim side of C9: `c` belongs to the fixed special-character set. -/
def IsSpecialChar (c : Char) : Prop := c ∈ specialChars

instance : DecidablePred IsUppercaseLetter :=
  fun c => inferInstanceAs (Decidable (65 ≤ c.toNat ∧ c.toNat ≤ 90))

instance : DecidablePred IsLowercaseLetter :=
  fun c => inferInstanceAs (Decidable (97 ≤ c.toNat ∧ c.toNat ≤ 122))

instance : DecidablePred IsDecimalDigit :=
  fun c => inferInstanceAs (Decidable (48 ≤ c.toNat ∧ c.toNat ≤ 57))

instance : DecidablePred IsSpecialChar :=
  fun c => inferInstanceAs (Decidable (c ∈ specialChars))

/-! ## Helper lemmas -/

/-- Membership in a conditional singleton list. -/
theorem mem_ite_single {c : Prop} [Decidable c] {s t : String} :
    (s ∈ if c then [t] else []) ↔ (c ∧ s = t) := by
  by_cases h : c
  · simp [h]
  · simp [h]

/-- A boolean equals the decision procedure of any proposition it is
equivalent to. -/
theorem bool_eq_decide {b : Bool} {q : Prop} [Decidable q]
    (h : b = true ↔ q) : b = decide q := by
  cases hb : b
  · have hq : ¬ q := by
      intro hq'
      have hbt := h.mpr hq'
      rw [hb] at hbt
      simp at hbt
    simp [hq]
  · simp [h.mp hb]

/-- The repeated-characters message is reported exactly when the
repeated-characters check fires. -/
theorem mem_analyze_rep {p : List Char} :
    ("Contains repeated characters" ∈ analyze_password_patterns p) ↔
      hasRepeated p = true := by
  have e1 : ("Contains repeated characters" : String) ≠ "Contains sequential numbers" := by decide
  have e2 : ("Contains repeated characters" : String) ≠ "Contains sequential letters" := by decide
  have e3 : ("Contains repeated characters" : String) ≠ "Contains keyboard patterns" := by decide
  unfold analyze_password_patterns
  simp [List.mem_append, mem_ite_single, e1, e2, e3]

/-- The sequential-numbers message is reported exactly when the
sequential-digits check fires. -/
theorem mem_analyze_dig {p : List Char} :
    ("Contains sequential numbers" ∈ analyze_password_patterns p) ↔
      hasSeqDigits p = true := by
  have e1 : ("Contains sequential numbers" : String) ≠ "Contains repeated characters" := by decide
  have e2 : ("Contains sequential numbers" : String) ≠ "Contains sequential letters" := by decide
  have e3 : ("Contains sequential numbers" : String) ≠ "Contains keyboard patterns" := by decide
  unfold analyze_password_patterns
  simp [List.mem_append, mem_ite_single, e1, e2, e3]

/-- The sequential-letters message is reported exactly when the
sequential-letters check fires. -/
theorem mem_analyze_let {p : List Char} :
    ("Contains sequential letters" ∈ analyze_password_patterns p) ↔
      hasSeqLetters p = true := by
  have e1 : ("Contains sequential letters" : String) ≠ "Contains repeated characters" := by decide
  have e2 : ("Contains sequential letters" : String) ≠ "Contains sequential numbers" := by decide
  have e3 : ("Contains sequential letters" : String) ≠ "Contains keyboard patterns" := by decide
  unfold analyze_password_patterns
  simp [List.mem_append, mem_ite_single, e1, e2, e3]

/-- The `[A-Z]` scan succeeds exactly when the password contains an
uppercase letter. -/
theorem has_upper_iff {p : List Char} :
    has_upper p = true ↔ ∃ c ∈ p, IsUppercaseLetter c := by
  unfold has_upper IsUppercaseLetter isUpperAlpha
  simp [List.any_eq_true]

/-- The `[a-z]` scan succeeds exactly when the password contains a
lowercase letter. -/
theorem has_lower_iff {p : List Char} :
    has_lower p = true ↔ ∃ c ∈ p, IsLowercaseLetter c := by
  unfold has_lower IsLowercaseLetter isLowerAlpha
  simp [List.any_eq_true]

/-- The `[0-9]` scan succeeds exactly when the password contains a digit. -/
theorem has_digit_iff {p : List Char} :
    has_digit p = true ↔ ∃ c ∈ p, IsDecimalDigit c := by
  unfold has_digit IsDecimalDigit isDigitChar
  simp [List.any_eq_true]

/-- The special-character scan succeeds exactly when the password contains
a character of the fixed special set. -/
theorem has_special_iff {p : List Char} :
    has_special p = true ↔ ∃ c ∈ p, IsSpecialChar c := by
  unfold has_special IsSpecialChar
  simp [List.any_eq_true]

/-! ## Claim theorems (C1–C4, C7, C9, C10) -/

/-- C1 (counterexample): on the empty password the code does NOT return a
displayed score of 0 with the "very weak" warning: the raw score starts
from a pattern component of 2, giving displayed score 1 and the "weak"
warning. -/
theorem c1_counterexample :
    ¬ ((calculate_password_strength []).score = 0 ∧
        (calculate_password_strength []).warning = "This password is very weak") := by
  decide

/-- C1 (amended): evaluating the empty password yields raw score 2, hence
displayed score 1 and the warning "This password is weak"; the entropy is
0, all five requirement booleans are false, and no patterns are
detected. -/
theorem c1_empty_amended :
    raw_score [] = 2 ∧
    (calculate_password_strength []).score = 1 ∧
    (calculate_password_strength []).warning = "This password is weak" ∧
    calculate_entropy [] = 0 ∧
    requirements [] = [("Length", false), ("Uppercase", false),
      ("Lowercase", false), ("Numbers", false), ("Special Characters", false)] ∧
    analyze_password_patterns [] = [] := by
  refine ⟨by decide, by decide, by decide, by decide, by decide, by decide⟩

set_option maxRecDepth 40000 in
/-- C2 (code bug): for the 218-character all-lowercase password the
crack-time combination count is `26 ^ 218`, which is at least `2 ^ 1024`
and therefore exceeds every IEEE-754 double.  CPython's
`combinations / (1e10)` first converts `combinations` to a float, so on
this input `calculate_password_strength` raises
`OverflowError: int too large to convert to float` instead of returning
the saturated "centuries" strings the claim requires. -/
theorem c2_overflow_input :
    combinations (List.replicate 218 'a') = 26 ^ 218 ∧
      2 ^ 1024 ≤ 26 ^ 218 := by
  constructor
  · decide
  · norm_num

/-- C3 (counterexample): on the password `"!"` the code computes entropy
`1 * bit_length(26) = 5`, while the claimed formula with a 32-symbol class
gives `1 * bit_length(32) = 6`. -/
theorem c3_counterexample :
    calculate_entropy ['!'] = 5 ∧ claimEntropy32 ['!'] = 6 := by
  refine ⟨by decide, by decide⟩

/-- C3 (amended): the entropy equals `len(password) * bit_length(pool)`
where the pool sums the sizes of the present classes among four fixed
classes of sizes 26 (lowercase), 26 (uppercase), 10 (digits) and
26 (symbols: the 26-character set scanned by the source), and is 0 when
the pool is 0. -/
theorem c3_entropy_amended (p : List Char) :
    calculate_entropy p = claimEntropyFixed p := by
  have h1 : entLowercase.length = 26 := rfl
  have h2 : entUppercase.length = 26 := rfl
  have h3 : entNumbers.length = 10 := rfl
  have h4 : entSymbols.length = 26 := rfl
  have hp : pool_size p = claimPool26 p := by
    unfold pool_size claimPool26
    rw [h1, h2, h3, h4]
  unfold calculate_entropy claimEntropyFixed
  rw [hp]
  rcases Nat.eq_zero_or_pos (claimPool26 p) with h | h
  · rw [h]
    simp [bitLength, bitLengthAux]
  · rw [if_pos h]

/-- C4 (counterexample): the password "7890" is reported as containing
sequential digits by the code, yet it contains no 4-character consecutive
ascending run drawn from "0123456789". -/
theorem c4_counterexample :
    hasSeqDigits ['7', '8', '9', '0'] = true ∧
      claimSeqAscending ['7', '8', '9', '0'] = false := by
  refine ⟨by decide, by decide⟩

/-- C4 (amended): the sequential-digits pattern is reported iff the
password contains a 4-character consecutive ascending run drawn from
"0123456789" or the wrap-around window "7890". -/
theorem c4_seq_digits_amended (p : List Char) :
    hasSeqDigits p =
      (claimSeqAscending p || containsSeq ['7', '8', '9', '0'] p) := by
  have hw : ascendingWindows =
      [['0', '1', '2', '3'], ['1', '2', '3', '4'], ['2', '3', '4', '5'],
       ['3', '4', '5', '6'], ['4', '5', '6', '7'], ['5', '6', '7', '8'],
       ['6', '7', '8', '9']] := by decide
  unfold hasSeqDigits claimSeqAscending digitQuads
  rw [hw]
  simp [List.any_cons, List.any_nil, Bool.or_assoc]

/-- The `possible_chars == 0` guard of the source is the same as flooring
the class-size sum to 1. -/
theorem floored_eq_max (p : List Char) :
    possible_chars_floored p = max 1 (possible_chars p) := by
  unfold possible_chars_floored
  split <;> omega

/-- The source's combination count equals the claim-side one. -/
theorem comb_eq_claim (p : List Char) :
    combinations p = claim_combinations p := by
  unfold combinations claim_combinations claim_possible_chars
  rw [floored_eq_max]
  rfl

/-- C7: the crack-time estimate follows the claimed formula: combinations
are `possibleChars ^ len` with `possibleChars` the 26/26/10/32 sum over
present classes floored to 1; above `10^18` combinations (i.e. more than
`1e8` seconds at `1e10` guesses per second) both strings saturate to
"centuries", otherwise the whole hours and whole seconds are displayed. -/
theorem c7_crack_time (p : List Char) :
    (calculate_password_strength p).online = claim_online p ∧
      (calculate_password_strength p).offline = claim_offline p := by
  constructor
  · show crack_online p = claim_online p
    unfold crack_online claim_online
    rw [comb_eq_claim]
  · show crack_offline p = claim_offline p
    unfold crack_offline claim_offline
    rw [comb_eq_claim]

/-- C9: the "Length" requirement is `len ≥ 12`, independent of the other
checks, and the other four requirement booleans test presence of an
uppercase letter, a lowercase letter, a digit, and a special character. -/
theorem c9_requirements (p : List Char) :
    requirements p =
      [("Length", decide (12 ≤ p.length)),
       ("Uppercase", decide (∃ c ∈ p, IsUppercaseLetter c)),
       ("Lowercase", decide (∃ c ∈ p, IsLowercaseLetter c)),
       ("Numbers", decide (∃ c ∈ p, IsDecimalDigit c)),
       ("Special Characters", decide (∃ c ∈ p, IsSpecialChar c))] := by
  have h2 : has_upper p = decide (∃ c ∈ p, IsUppercaseLetter c) :=
    bool_eq_decide has_upper_iff
  have h3 : has_lower p = decide (∃ c ∈ p, IsLowercaseLetter c) :=
    bool_eq_decide has_lower_iff
  have h4 : has_digit p = decide (∃ c ∈ p, IsDecimalDigit c) :=
    bool_eq_decide has_digit_iff
  have h5 : has_special p = decide (∃ c ∈ p, IsSpecialChar c) :=
    bool_eq_decide has_special_iff
  unfold requirements
  rw [h2, h3, h4, h5]

/-- C10: appending a character from a class not yet present in the
password never decreases the variety component. -/
theorem c10_variety_monotone (p : List Char) (c : Char)
    (h : (isLowerAlpha c = true ∧ has_lower p = false) ∨
         (isUpperAlpha c = true ∧ has_upper p = false) ∨
         (isDigitChar c = true ∧ has_digit p = false) ∨
         (specialChars.contains c = true ∧ has_special p = false)) :
    variety_score p ≤ variety_score (p ++ [c]) := by
  clear h
  have key : ∀ f : Char → Bool,
      (if p.any f then 1 else 0) ≤ (if (p ++ [c]).any f then 1 else 0) := by
    intro f
    by_cases hp : p.any f = true
    · have hq : (p ++ [c]).any f = true := by
        rw [List.any_append, hp, Bool.true_or]
      rw [if_pos hp, if_pos hq]
    · rw [if_neg hp]
      exact Nat.zero_le _
  unfold variety_score has_lower has_upper has_digit has_special
  have k1 := key isLowerAlpha
  have k2 := key isUpperAlpha
  have k3 := key isDigitChar
  have k4 := key (fun x => specialChars.contains x)
  omega

/-- Witness for C10 at the empty password and the lowercase character
'a'. -/
theorem c10_variety_monotone_witness :
    (isLowerAlpha 'a' = true ∧ has_lower [] = false) ∧
      variety_score [] ≤ variety_score ([] ++ ['a']) :=
  ⟨by decide, c10_variety_monotone [] 'a' (Or.inl (by decide))⟩

/-- The accumulated variety score equals the count of true class
booleans. -/
theorem variety_eq_claim (p : List Char) :
    (variety_score p : Int) = claim_variety_component p := by
  unfold variety_score claim_variety_component
  cases h1 : has_lower p <;> cases h2 : has_upper p <;>
    cases h3 : has_digit p <;> cases h4 : has_special p <;> decide

/-- The sequentially-decremented pattern score equals 2 minus one per
reported penalizing finding. -/
theorem pattern_eq_claim (p : List Char) :
    pattern_score p = claim_pattern_component p := by
  unfold pattern_score claim_pattern_component
  simp only [mem_analyze_rep, mem_analyze_dig, mem_analyze_let]
  cases hr : hasRepeated p <;> cases hd : hasSeqDigits p <;>
    cases hl : hasSeqLetters p <;> decide

/-- The raw (pre-halving) score equals the claim-side sum of the four
components. -/
theorem raw_eq_claim (p : List Char) : raw_score p = claim_raw_total p := by
  have h2 := variety_eq_claim p
  have h3 := pattern_eq_claim p
  have h1 : (length_score p : Int) = claim_length_component p := rfl
  have h4 : (entropy_score p : Int) = claim_entropy_component p := rfl
  unfold raw_score claim_raw_total
  omega

/-- C5: the displayed score is `min(4, floor(raw_total / 2))` for the raw
total built from the four claimed components. -/
theorem c5_score_formula (p : List Char) :
    (calculate_password_strength p).score =
      min 4 (Int.fdiv (claim_raw_total p) 2) := by
  show min 4 (Int.fdiv (raw_score p) 2) = _
  rw [raw_eq_claim]

/-- C6: the warning is derived from the raw (pre-halving) total via the
fixed thresholds; the code prepends "This password is " to the label. -/
theorem c6_warning_thresholds (p : List Char) :
    (calculate_password_strength p).warning =
      "This password is " ++ warning_label (claim_raw_total p) := by
  show warning_of p = _
  unfold warning_of warning_label
  rw [← raw_eq_claim]
  split_ifs <;> rfl

/-- An index with a value is in range. -/
theorem lt_len_of_some {l : List Char} {i : Nat} {a : Char}
    (h : l[i]? = some a) : i < l.length :=
  (List.getElem?_eq_some.mp h).1

/-- A successful 4-character match pins down the first four characters of
the text. -/
theorem matchAt4 {a b c d : Char} {t : List Char}
    (h : matchAt [a, b, c, d] t = true) :
    t[0]? = some a ∧ t[1]? = some b ∧ t[2]? = some c ∧ t[3]? = some d := by
  match t with
  | [] => simp [matchAt] at h
  | [x] => simp [matchAt] at h
  | [x, y] => simp [matchAt] at h
  | [x, y, z] => simp [matchAt] at h
  | x :: y :: z :: w :: r =>
    simp only [matchAt, Bool.and_eq_true, beq_iff_eq] at h
    obtain ⟨h1, h2, h3, h4, -⟩ := h
    subst h1; subst h2; subst h3; subst h4
    refine ⟨?_, ?_, ?_, ?_⟩ <;> simp

/-- A successful search yields an offset at which the pattern matches. -/
theorem containsSeq_drop {q p : List Char} (h : containsSeq q p = true) :
    ∃ i, matchAt q (p.drop i) = true := by
  induction p with
  | nil => exact ⟨0, h⟩
  | cons x rest ih =>
    rw [containsSeq] at h
    rcases Bool.or_eq_true_iff.mp h with h' | h'
    · exact ⟨0, h'⟩
    · obtain ⟨i, hi⟩ := ih h'
      exact ⟨i + 1, hi⟩

/-- A found 4-character literal occupies four consecutive positions. -/
theorem quad_occurrence {a b c d : Char} {p : List Char}
    (h : containsSeq [a, b, c, d] p = true) :
    ∃ j, p[j]? = some a ∧ p[j + 1]? = some b ∧
      p[j + 2]? = some c ∧ p[j + 3]? = some d := by
  obtain ⟨i, hi⟩ := containsSeq_drop h
  obtain ⟨h0, h1, h2, h3⟩ := matchAt4 hi
  rw [List.getElem?_drop] at h0 h1 h2 h3
  exact ⟨i, h0, h1, h2, h3⟩

/-- A fired repeated-characters check yields three consecutive equal
characters. -/
theorem repeated_occurrence {p : List Char} (h : hasRepeated p = true) :
    ∃ i x, p[i]? = some x ∧ p[i + 1]? = some x ∧ p[i + 2]? = some x := by
  induction p with
  | nil => simp [hasRepeated] at h
  | cons a rest ih =>
    match rest, ih, h with
    | [], _, h => simp [hasRepeated] at h
    | [b], _, h => simp [hasRepeated] at h
    | b :: c :: r, ih, h =>
      rw [hasRepeated] at h
      rcases Bool.or_eq_true_iff.mp h with h' | h'
      · obtain ⟨hab, hbc⟩ := Bool.and_eq_true_iff.mp h'
        have hab' := beq_iff_eq.mp hab
        have hbc' := beq_iff_eq.mp hbc
        subst hab'; subst hbc'
        refine ⟨0, a, ?_, ?_, ?_⟩ <;> simp
      · obtain ⟨i, x, h1, h2, h3⟩ := ih h'
        refine ⟨i + 1, x, ?_, ?_, ?_⟩
        · rw [List.getElem?_cons_succ]; exact h1
        · rw [List.getElem?_cons_succ]; exact h2
        · rw [show i + 1 + 2 = (i + 2) + 1 from rfl, List.getElem?_cons_succ]
          exact h3

/-- A fired sequential-digits check yields four consecutive positions
holding pairwise-adjacent-distinct digit characters. -/
theorem seq_digit_occurrence {p : List Char} (h : hasSeqDigits p = true) :
    ∃ j a b c d, p[j]? = some a ∧ p[j + 1]? = some b ∧
      p[j + 2]? = some c ∧ p[j + 3]? = some d ∧
      (a ≠ b ∧ b ≠ c ∧ c ≠ d) ∧
      ((48 ≤ a.toNat ∧ a.toNat ≤ 57) ∧ (48 ≤ b.toNat ∧ b.toNat ≤ 57) ∧
       (48 ≤ c.toNat ∧ c.toNat ≤ 57) ∧ (48 ≤ d.toNat ∧ d.toNat ≤ 57)) := by
  unfold hasSeqDigits at h
  rw [List.any_eq_true] at h
  obtain ⟨q, hq, hc⟩ := h
  simp only [digitQuads, List.mem_cons, List.not_mem_nil, or_false] at hq
  rcases hq with rfl | rfl | rfl | rfl | rfl | rfl | rfl | rfl <;>
    · obtain ⟨j, h0, h1, h2, h3⟩ := quad_occurrence hc
      exact ⟨j, _, _, _, _, h0, h1, h2, h3, by decide, by decide⟩

/-- A fired sequential-letters check yields four consecutive positions of
the lowercased password holding pairwise-adjacent-distinct lowercase
letters. -/
theorem seq_letter_occurrence {p : List Char} (h : hasSeqLetters p = true) :
    ∃ k a b c d, (toLowerStr p)[k]? = some a ∧ (toLowerStr p)[k + 1]? = some b ∧
      (toLowerStr p)[k + 2]? = some c ∧ (toLowerStr p)[k + 3]? = some d ∧
      (a ≠ b ∧ b ≠ c ∧ c ≠ d) ∧
      ((97 ≤ a.toNat ∧ a.toNat ≤ 122) ∧ (97 ≤ b.toNat ∧ b.toNat ≤ 122) ∧
       (97 ≤ c.toNat ∧ c.toNat ≤ 122) ∧ (97 ≤ d.toNat ∧ d.toNat ≤ 122)) := by
  unfold hasSeqLetters at h
  rw [List.any_eq_true] at h
  obtain ⟨q, hq, hc⟩ := h
  simp only [letterQuads, List.mem_cons, List.not_mem_nil, or_false] at hq
  rcases hq with rfl | rfl | rfl | rfl | rfl | rfl | rfl | rfl | rfl | rfl |
    rfl | rfl | rfl | rfl | rfl | rfl | rfl | rfl | rfl | rfl | rfl | rfl | rfl <;>
    · obtain ⟨j, h0, h1, h2, h3⟩ := quad_occurrence hc
      exact ⟨j, _, _, _, _, h0, h1, h2, h3, by decide, by decide⟩

/-- Within a window of four pairwise-adjacent-distinct characters, adjacent
positions hold distinct characters. -/
theorem quad_adj_ne {p : List Char} {j : Nat} {a b c d : Char}
    (h0 : p[j]? = some a) (h1 : p[j + 1]? = some b)
    (h2 : p[j + 2]? = some c) (h3 : p[j + 3]? = some d)
    (nab : a ≠ b) (nbc : b ≠ c) (ncd : c ≠ d) :
    ∀ q, j ≤ q → q + 1 ≤ j + 3 → p[q]? ≠ p[q + 1]? := by
  intro q hq1 hq2 heq
  rcases (by omega : q = j ∨ q = j + 1 ∨ q = j + 2) with rfl | rfl | rfl
  · rw [h0, h1] at heq
    exact nab (Option.some.inj heq)
  · rw [h1, show j + 1 + 1 = j + 2 from rfl, h2] at heq
    exact nbc (Option.some.inj heq)
  · rw [h2, show j + 2 + 1 = j + 3 from rfl, h3] at heq
    exact ncd (Option.some.inj heq)

/-- Every position of a 4-character window whose characters all lie in a
code-point range holds a character of that range. -/
theorem quad_pos_range {p : List Char} {j : Nat} {a b c d : Char} {lo hi : Nat}
    (h0 : p[j]? = some a) (h1 : p[j + 1]? = some b)
    (h2 : p[j + 2]? = some c) (h3 : p[j + 3]? = some d)
    (ba : lo ≤ a.toNat ∧ a.toNat ≤ hi) (bb : lo ≤ b.toNat ∧ b.toNat ≤ hi)
    (bc : lo ≤ c.toNat ∧ c.toNat ≤ hi) (bd : lo ≤ d.toNat ∧ d.toNat ≤ hi) :
    ∀ q, j ≤ q → q ≤ j + 3 → ∃ x, p[q]? = some x ∧ lo ≤ x.toNat ∧ x.toNat ≤ hi := by
  intro q hq1 hq2
  rcases (by omega : q = j ∨ q = j + 1 ∨ q = j + 2 ∨ q = j + 3) with rfl | rfl | rfl | rfl
  · exact ⟨a, h0, ba.1, ba.2⟩
  · exact ⟨b, h1, bb.1, bb.2⟩
  · exact ⟨c, h2, bc.1, bc.2⟩
  · exact ⟨d, h3, bd.1, bd.2⟩

/-- Within a run of three equal characters, adjacent positions hold the
same character. -/
theorem rep_adj_eq {p : List Char} {i : Nat} {x : Char}
    (h0 : p[i]? = some x) (h1 : p[i + 1]? = some x) (h2 : p[i + 2]? = some x) :
    ∀ q, i ≤ q → q + 1 ≤ i + 2 → p[q]? = some x ∧ p[q + 1]? = some x := by
  intro q hq1 hq2
  rcases (by omega : q = i ∨ q = i + 1) with rfl | rfl
  · exact ⟨h0, h1⟩
  · exact ⟨h1, by rw [show i + 1 + 1 = i + 2 from rfl]; exact h2⟩

/-- Equal adjacent characters stay equal after lowercasing. -/
theorem rep_in_lower {p : List Char} {q : Nat} {x : Char}
    (h1 : p[q]? = some x) (h2 : p[q + 1]? = some x) :
    (toLowerStr p)[q]? = (toLowerStr p)[q + 1]? := by
  unfold toLowerStr
  rw [List.getElem?_map, List.getElem?_map, h1, h2]

/-- A password with a repeated-character run has length at least 3. -/
theorem len3_of_rep {p : List Char} (h : hasRepeated p = true) :
    3 ≤ p.length := by
  obtain ⟨i, x, -, -, h2⟩ := repeated_occurrence h
  have := lt_len_of_some h2
  omega

/-- A password with a sequential-digits run has length at least 4. -/
theorem len4_of_dig {p : List Char} (h : hasSeqDigits p = true) :
    4 ≤ p.length := by
  obtain ⟨j, a, b, c, d, -, -, -, h3, -, -⟩ := seq_digit_occurrence h
  have := lt_len_of_some h3
  omega

/-- The lowercased password has the same length. -/
theorem toLowerStr_length (p : List Char) : (toLowerStr p).length = p.length := by
  simp [toLowerStr]

/-- A password with a sequential-letters run has length at least 4. -/
theorem len4_of_let {p : List Char} (h : hasSeqLetters p = true) :
    4 ≤ p.length := by
  obtain ⟨k, a, b, c, d, -, -, -, h3, -, -⟩ := seq_letter_occurrence h
  have hk := lt_len_of_some h3
  rw [toLowerStr_length] at hk
  omega

/-- A password with both a repeated run and a sequential-digits run has
length at least 6: a run of three equal characters and a window of four
pairwise-adjacent-distinct characters can share at most one position. -/
theorem len6_rep_dig {p : List Char} (hr : hasRepeated p = true)
    (hd : hasSeqDigits p = true) : 6 ≤ p.length := by
  by_contra hlen
  push_neg at hlen
  obtain ⟨i, x, r0, r1, r2⟩ := repeated_occurrence hr
  obtain ⟨j, a, b, c, d, d0, d1, d2, d3, dne, -⟩ := seq_digit_occurrence hd
  have hi := lt_len_of_some r2
  have hj := lt_len_of_some d3
  have adjne := quad_adj_ne d0 d1 d2 d3 dne.1 dne.2.1 dne.2.2
    (max i j) (by omega) (by omega)
  have adjeq := rep_adj_eq r0 r1 r2 (max i j) (by omega) (by omega)
  exact adjne (by rw [adjeq.1, adjeq.2])

/-- A password with both a repeated run and a sequential-letters run has
length at least 6. -/
theorem len6_rep_let {p : List Char} (hr : hasRepeated p = true)
    (hl : hasSeqLetters p = true) : 6 ≤ p.length := by
  by_contra hlen
  push_neg at hlen
  obtain ⟨i, x, r0, r1, r2⟩ := repeated_occurrence hr
  obtain ⟨k, a, b, c, d, l0, l1, l2, l3, lne, -⟩ := seq_letter_occurrence hl
  have hi := lt_len_of_some r2
  have hk := lt_len_of_some l3
  rw [toLowerStr_length] at hk
  have adjne := quad_adj_ne l0 l1 l2 l3 lne.1 lne.2.1 lne.2.2
    (max i k) (by omega) (by omega)
  have adjeq := rep_adj_eq r0 r1 r2 (max i k) (by omega) (by omega)
  exact adjne (rep_in_lower adjeq.1 adjeq.2)

/-- No position can hold a digit in the password and a lowercase letter in
the lowercased password: lowercasing leaves digits unchanged. -/
theorem digit_letter_no_common {p : List Char} {q : Nat} {x y : Char}
    (hx : p[q]? = some x) (hdx1 : 48 ≤ x.toNat) (hdx2 : x.toNat ≤ 57)
    (hy : (toLowerStr p)[q]? = some y)
    (hly1 : 97 ≤ y.toNat) (hly2 : y.toNat ≤ 122) : False := by
  unfold toLowerStr at hy
  rw [List.getElem?_map, hx] at hy
  have hxy : lowerChar x = y := Option.some.inj hy
  unfold lowerChar at hxy
  rw [if_neg (by omega)] at hxy
  subst hxy
  omega

/-- A password with both a sequential-digits run and a sequential-letters
run has length at least 8: the two windows cannot overlap. -/
theorem len8_dig_let {p : List Char} (hd : hasSeqDigits p = true)
    (hl : hasSeqLetters p = true) : 8 ≤ p.length := by
  by_contra hlen
  push_neg at hlen
  obtain ⟨j, a, b, c, d, d0, d1, d2, d3, -, dbd⟩ := seq_digit_occurrence hd
  obtain ⟨k, a', b', c', d', l0, l1, l2, l3, -, lbd⟩ := seq_letter_occurrence hl
  have hj := lt_len_of_some d3
  have hk := lt_len_of_some l3
  rw [toLowerStr_length] at hk
  obtain ⟨x, hx, hxb1, hxb2⟩ := quad_pos_range d0 d1 d2 d3
    dbd.1 dbd.2.1 dbd.2.2.1 dbd.2.2.2 (max j k) (by omega) (by omega)
  obtain ⟨y, hy, hyb1, hyb2⟩ := quad_pos_range l0 l1 l2 l3
    lbd.1 lbd.2.1 lbd.2.2.1 lbd.2.2.2 (max j k) (by omega) (by omega)
  exact digit_letter_no_common hx hxb1 hxb2 hy hyb1 hyb2

/-- A password with a repeated run, a sequential-digits run and a
sequential-letters run has length at least 9 (in fact at least 10). -/
theorem len9_all {p : List Char} (hr : hasRepeated p = true)
    (hd : hasSeqDigits p = true) (hl : hasSeqLetters p = true) :
    9 ≤ p.length := by
  by_contra hlen
  push_neg at hlen
  obtain ⟨i, x, r0, r1, r2⟩ := repeated_occurrence hr
  obtain ⟨j, a, b, c, d, d0, d1, d2, d3, dne, dbd⟩ := seq_digit_occurrence hd
  obtain ⟨k, a', b', c', d', l0, l1, l2, l3, lne, lbd⟩ := seq_letter_occurrence hl
  have hi := lt_len_of_some r2
  have hj := lt_len_of_some d3
  have hk := lt_len_of_some l3
  rw [toLowerStr_length] at hk
  have hdisj : j + 4 ≤ k ∨ k + 4 ≤ j := by
    by_contra hc
    push_neg at hc
    obtain ⟨x', hx, hxb1, hxb2⟩ := quad_pos_range d0 d1 d2 d3
      dbd.1 dbd.2.1 dbd.2.2.1 dbd.2.2.2 (max j k) (by omega) (by omega)
    obtain ⟨y', hy, hyb1, hyb2⟩ := quad_pos_range l0 l1 l2 l3
      lbd.1 lbd.2.1 lbd.2.2.1 lbd.2.2.2 (max j k) (by omega) (by omega)
    exact digit_letter_no_common hx hxb1 hxb2 hy hyb1 hyb2
  rcases hdisj with hjk | hkj
  · rcases le_or_lt i 2 with hi2 | hi2
    · have adjne := quad_adj_ne d0 d1 d2 d3 dne.1 dne.2.1 dne.2.2
        i (by omega) (by omega)
      have adjeq := rep_adj_eq r0 r1 r2 i (by omega) (by omega)
      exact adjne (by rw [adjeq.1, adjeq.2])
    · have adjne := quad_adj_ne l0 l1 l2 l3 lne.1 lne.2.1 lne.2.2
        (max i 4) (by omega) (by omega)
      have adjeq := rep_adj_eq r0 r1 r2 (max i 4) (by omega) (by omega)
      exact adjne (rep_in_lower adjeq.1 adjeq.2)
  · rcases le_or_lt i 2 with hi2 | hi2
    · have adjne := quad_adj_ne l0 l1 l2 l3 lne.1 lne.2.1 lne.2.2
        i (by omega) (by omega)
      have adjeq := rep_adj_eq r0 r1 r2 i (by omega) (by omega)
      exact adjne (rep_in_lower adjeq.1 adjeq.2)
    · have adjne := quad_adj_ne d0 d1 d2 d3 dne.1 dne.2.1 dne.2.2
        (max i 4) (by omega) (by omega)
      have adjeq := rep_adj_eq r0 r1 r2 (max i 4) (by omega) (by omega)
      exact adjne (by rw [adjeq.1, adjeq.2])

/-- The fired penalties never exceed the length score: each combination of
fired pattern checks forces a length that yields at least as many length
points. -/
theorem penalty_le_length_score (p : List Char) :
    (if hasRepeated p then 1 else 0) + (if hasSeqDigits p then 1 else 0) +
      (if hasSeqLetters p then 1 else 0) ≤ length_score p := by
  have cf : ((false : Bool) = true) = False := by simp
  have ct : ((true : Bool) = true) = True := by simp
  unfold length_score
  cases hr : hasRepeated p <;> cases hd : hasSeqDigits p <;>
    cases hl : hasSeqLetters p <;> simp only [cf, ct, if_true, if_false]
  · omega
  · have := len4_of_let hl
    omega
  · have := len4_of_dig hd
    omega
  · have := len8_dig_let hd hl
    omega
  · have := len3_of_rep hr
    omega
  · have := len6_rep_let hr hl
    omega
  · have := len6_rep_dig hr hd
    omega
  · have := len9_all hr hd hl
    omega

/-- The raw (pre-halving) score is always at least 2. -/
theorem raw_score_ge_two (p : List Char) : 2 ≤ raw_score p := by
  have cf : ((false : Bool) = true) = False := by simp
  have ct : ((true : Bool) = true) = True := by simp
  have hcast := penalty_le_length_score p
  unfold raw_score pattern_score
  cases hr : hasRepeated p <;> cases hd : hasSeqDigits p <;>
    cases hl : hasSeqLetters p <;>
    rw [hr, hd, hl] at hcast <;>
    simp only [cf, ct, if_true, if_false] at hcast ⊢ <;> omega

/-- C8: for every password the raw total is at least 2, hence the displayed
score is at least 1: no input yields displayed score 0. -/
theorem c8_min_score (p : List Char) :
    2 ≤ raw_score p ∧ 1 ≤ (calculate_password_strength p).score := by
  have h := raw_score_ge_two p
  refine ⟨h, ?_⟩
  show 1 ≤ min 4 (Int.fdiv (raw_score p) 2)
  rw [Int.fdiv_eq_ediv]
  · omega
  · omega
